import Mathlib

/-!
Verification of the Asistencia-alumnos student-attendance register.

The definitions below are a shallow embedding of the application code:
the validation, submit and list-filter logic of
`src/components/StudentForm.tsx`, `src/components/StudentList.tsx` and
`src/components/AttendanceForm.tsx` (which also holds the attendance
list component), together with a state model of the relational store
described by the migration
`supabase/migrations/20251025012817_create_students_and_attendance_tables.sql`.

JavaScript string operations are modelled on `List Char` by executable
functions so that every definition evaluates by kernel reduction.
-/

namespace Asistencia

/-- Characters of a string, lower-cased; models the JavaScript
`toLowerCase` calls used by the search filters. -/
def lowerChars (s : String) : List Char := s.data.map Char.toLower

/-- Models JavaScript `trim`: drop whitespace from both ends. -/
def jsTrim (s : String) : List Char :=
  ((s.data.dropWhile Char.isWhitespace).reverse.dropWhile Char.isWhitespace).reverse

/-- Does `needle` occur at the head of the second list? -/
def leadMatch : List Char → List Char → Bool
  | [], _ => true
  | _ :: _, [] => false
  | a :: n, b :: h => a == b && leadMatch n h

/-- Does `needle` occur as a contiguous run inside the second list?
Models JavaScript `includes` on strings. -/
def charsIncludes (needle : List Char) : List Char → Bool
  | [] => needle.isEmpty
  | c :: t => leadMatch needle (c :: t) || charsIncludes needle t

/-- `includes` on raw strings. -/
def jsIncludes (s needle : String) : Bool := charsIncludes needle.data s.data

/-- The DNI rule of `StudentForm.validate`: exactly eight digit
characters, the regular expression caret-backslash-d-eight-dollar. -/
def dniMatches (s : String) : Bool :=
  s.data.length == 8 && s.data.all Char.isDigit

/-- Split a list at the first occurrence of a character, returning the
parts before and after it; `none` when the character is absent. -/
def breakAt (c : Char) : List Char → Option (List Char × List Char)
  | [] => none
  | x :: xs => if x = c then some ([], xs) else (breakAt c xs).map (fun p => (x :: p.1, p.2))

/-- The email rule of `StudentForm.validate`: local part of one or more
characters that are neither whitespace nor the at-sign, an at-sign, then
a domain of such characters holding a dot that is neither its first nor
its last character. -/
def emailMatches (s : String) : Bool :=
  match breakAt '@' s.data with
  | none => false
  | some (l, d) =>
    !l.isEmpty && l.all (fun c => !c.isWhitespace) &&
    !d.contains '@' && d.all (fun c => !c.isWhitespace) &&
    ((d.drop 1).dropLast).contains '.'

/-- A row of the `students` table, after the `Student` interface of
`src/lib/supabase.ts`; timestamps are modelled as natural numbers. -/
structure Student where
  id : String
  codigo : String
  nombres : String
  apellidos : String
  dni : String
  carrera : String
  semestre : Int
  email : Option String
  telefono : Option String
  activo : Bool
  created_at : Nat
  updated_at : Nat
deriving DecidableEq, Repr

/-- The `formData` state of `StudentForm`: every text input is a raw
string, optional fields are the empty string when blank. -/
structure StudentFormData where
  codigo : String
  nombres : String
  apellidos : String
  dni : String
  carrera : String
  semestre : Int
  email : String
  telefono : String
  activo : Bool
deriving DecidableEq, Repr

/-- The `validate` function of `StudentForm`: the mapping from field
name to message collected into `newErrors`, one entry per violated
rule, in source order. -/
def validateStudent (f : StudentFormData) : List (String × String) :=
  (if jsTrim f.codigo = [] then [("codigo", "El código es requerido")] else []) ++
  (if jsTrim f.nombres = [] then [("nombres", "Los nombres son requeridos")] else []) ++
  (if jsTrim f.apellidos = [] then [("apellidos", "Los apellidos son requeridos")] else []) ++
  (if jsTrim f.dni = [] then [("dni", "El DNI es requerido")]
   else if !dniMatches f.dni then [("dni", "El DNI debe tener 8 dígitos")] else []) ++
  (if f.carrera = "" then [("carrera", "La carrera es requerida")] else []) ++
  (if f.semestre < 1 ∨ 6 < f.semestre then [("semestre", "El semestre debe estar entre 1 y 6")] else []) ++
  (if f.email ≠ "" ∧ emailMatches f.email = false then [("email", "Email inválido")] else [])

/-- Whether the mapping produced by `validate` holds an entry for the
given field. -/
def hasStudentError (fld : String) (f : StudentFormData) : Bool :=
  (validateStudent f).any (fun p => p.1 == fld)

/-- The `dataToSave` record of `StudentForm.handleSubmit`: the form
data with empty optional strings normalised to null. -/
structure StudentRow where
  codigo : String
  nombres : String
  apellidos : String
  dni : String
  carrera : String
  semestre : Int
  email : Option String
  telefono : Option String
  activo : Bool
deriving DecidableEq, Repr

/-- Builds `dataToSave` from the form state, as in
`StudentForm.handleSubmit`. -/
def studentDataToSave (f : StudentFormData) : StudentRow :=
  { codigo := f.codigo, nombres := f.nombres, apellidos := f.apellidos, dni := f.dni,
    carrera := f.carrera, semestre := f.semestre,
    email := if f.email = "" then none else some f.email,
    telefono := if f.telefono = "" then none else some f.telefono,
    activo := f.activo }

/-- The store call a student form submission issues: an insert when
creating, an update by identifier when editing. -/
inductive StudentMutation where
  | insert (row : StudentRow)
  | update (id : String) (row : StudentRow)
deriving DecidableEq, Repr

/-- The mutation `StudentForm.handleSubmit` would issue for the given
edit target. -/
def studentMutation (editing : Option String) (f : StudentFormData) : StudentMutation :=
  match editing with
  | some id => .update id (studentDataToSave f)
  | none => .insert (studentDataToSave f)

/-- The store call actually issued by `StudentForm.handleSubmit`:
`none` when `validate` found any violation. -/
def studentStoreCall (editing : Option String) (f : StudentFormData) : Option StudentMutation :=
  if validateStudent f = [] then some (studentMutation editing f) else none

/-- An error object returned by a failed store mutation. -/
structure StoreError where
  code : String
  message : String
deriving DecidableEq, Repr

/-- What the catch branch of `StudentForm.handleSubmit` shows the user. -/
inductive SubmitFeedback where
  | fieldErrors (errs : List (String × String))
  | genericAlert
  | logOnly
deriving DecidableEq, Repr

/-- The catch branch of `StudentForm.handleSubmit`: uniqueness
violations (code 23505) are mapped to a field when the message mentions
it; other errors raise a generic alert. A 23505 whose message mentions
none of the three fields falls through with only the console log. -/
def handleStudentError (e : StoreError) : SubmitFeedback :=
  if e.code = "23505" then
    if jsIncludes e.message "codigo" then .fieldErrors [("codigo", "Este código ya está registrado")]
    else if jsIncludes e.message "dni" then .fieldErrors [("dni", "Este DNI ya está registrado")]
    else if jsIncludes e.message "email" then .fieldErrors [("email", "Este email ya está registrado")]
    else .logOnly
  else .genericAlert

/-- The predicate of `StudentList.filteredStudents`: the lowered search
term against lowered nombres, apellidos and codigo, and against the raw
dni. -/
def studentListPred (term : String) (s : Student) : Bool :=
  charsIncludes (lowerChars term) (lowerChars s.nombres) ||
  charsIncludes (lowerChars term) (lowerChars s.apellidos) ||
  charsIncludes (lowerChars term) (lowerChars s.codigo) ||
  charsIncludes (lowerChars term) s.dni.data

/-- The client-side filter of the student list view. -/
def studentListFilter (term : String) (ss : List Student) : List Student :=
  ss.filter (studentListPred term)

/-- The predicate of `AttendanceForm.filteredStudents`: nombres,
apellidos and codigo only. -/
def rosterPred (term : String) (s : Student) : Bool :=
  charsIncludes (lowerChars term) (lowerChars s.nombres) ||
  charsIncludes (lowerChars term) (lowerChars s.apellidos) ||
  charsIncludes (lowerChars term) (lowerChars s.codigo)

/-- The roster search of the attendance form. -/
def rosterFilter (term : String) (ss : List Student) : List Student :=
  ss.filter (rosterPred term)

/-- Modelled from the words of the specification: the student list
filter matches the term case-insensitively against given names, family
names and code, and against no other field. -/
def specStudentSearchPred (term : String) (s : Student) : Bool :=
  charsIncludes (lowerChars term) (lowerChars s.nombres) ||
  charsIncludes (lowerChars term) (lowerChars s.apellidos) ||
  charsIncludes (lowerChars term) (lowerChars s.codigo)

/-- The student list filter as the code has it, phrased against the
specification predicate: the dni field is searched as well. -/
def specStudentSearchPredAmended (term : String) (s : Student) : Bool :=
  specStudentSearchPred term s || charsIncludes (lowerChars term) s.dni.data

/-- A row of the `attendance` table; `created_at` is a numeric
timestamp, `fecha` an ISO date string. -/
structure AttendanceRow where
  id : String
  student_id : String
  fecha : String
  estado : String
  hora_entrada : Option String
  curso : String
  observaciones : Option String
  created_at : Nat
deriving DecidableEq, Repr

/-- The `formData` state of `AttendanceForm`. -/
structure AttendanceFormData where
  student_id : String
  fecha : String
  estado : String
  hora_entrada : String
  curso : String
  observaciones : String
deriving DecidableEq, Repr

/-- The initial `formData` of a freshly opened attendance form (no
entry being edited): estado `presente`, fecha the current date. -/
def initAttendanceFormData (today : String) : AttendanceFormData :=
  { student_id := "", fecha := today, estado := "presente",
    hora_entrada := "", curso := "", observaciones := "" }

/-- The form state after the user only picked a student and filled the
free-text fields, leaving fecha and estado untouched from the initial
state. -/
def submitOnlySelection (today sid curso hora obs : String) : AttendanceFormData :=
  { initAttendanceFormData today with
    student_id := sid, curso := curso, hora_entrada := hora, observaciones := obs }

/-- The `validate` function of `AttendanceForm`. -/
def validateAttendance (f : AttendanceFormData) : List (String × String) :=
  (if f.student_id = "" then [("student_id", "Debe seleccionar un estudiante")] else []) ++
  (if f.fecha = "" then [("fecha", "La fecha es requerida")] else []) ++
  (if jsTrim f.curso = [] then [("curso", "El curso es requerido")] else [])

/-- The `dataToSave` record of `AttendanceForm.handleSubmit`. -/
structure AttendanceSave where
  student_id : String
  fecha : String
  estado : String
  hora_entrada : Option String
  curso : String
  observaciones : Option String
deriving DecidableEq, Repr

/-- Builds `dataToSave` from the attendance form state. -/
def attendanceDataToSave (f : AttendanceFormData) : AttendanceSave :=
  { student_id := f.student_id, fecha := f.fecha, estado := f.estado,
    hora_entrada := if f.hora_entrada = "" then none else some f.hora_entrada,
    curso := f.curso,
    observaciones := if f.observaciones = "" then none else some f.observaciones }

/-- The store call an attendance form submission issues. -/
inductive AttendanceMutation where
  | insert (row : AttendanceSave)
  | update (id : String) (row : AttendanceSave)
deriving DecidableEq, Repr

/-- The store call issued by `AttendanceForm.handleSubmit`: `none` when
`validate` found any violation. -/
def attendanceStoreCall (editing : Option String) (f : AttendanceFormData) :
    Option AttendanceMutation :=
  if validateAttendance f = [] then
    some (match editing with
          | some id => .update id (attendanceDataToSave f)
          | none => .insert (attendanceDataToSave f))
  else none

/-- Strict lexicographic comparison on character lists; the order the
store uses for text columns and for ISO dates. -/
def strLtB : List Char → List Char → Bool
  | _, [] => false
  | [], _ :: _ => true
  | a :: as, b :: bs => if a < b then true else if b < a then false else strLtB as bs

/-- Reflexive lexicographic comparison. -/
def strLeB (a b : List Char) : Bool := !strLtB b a

/-- The ordering of `AttendanceList.loadAttendances`: fecha descending,
then created_at descending. -/
def attBefore (a b : AttendanceRow) : Bool :=
  if strLtB b.fecha.data a.fecha.data then true
  else if strLtB a.fecha.data b.fecha.data then false
  else decide (b.created_at ≤ a.created_at)

/-- Insertion into a list sorted by the given comparator. -/
def insertSorted {α : Type} (le : α → α → Bool) (x : α) : List α → List α
  | [] => [x]
  | y :: ys => if le x y then x :: y :: ys else y :: insertSorted le x ys

/-- Insertion sort by the given comparator. -/
def sortedBy {α : Type} (le : α → α → Bool) : List α → List α
  | [] => []
  | x :: xs => insertSorted le x (sortedBy le xs)

/-- Helper of `jsSetDedup`, carrying the set of values already seen. -/
def dedupFirstAux (seen : List String) : List String → List String
  | [] => []
  | x :: xs => if x ∈ seen then dedupFirstAux seen xs else x :: dedupFirstAux (x :: seen) xs

/-- Models the JavaScript spread of a `Set` built from a list: keep the
first occurrence of each value. -/
def jsSetDedup (l : List String) : List String := dedupFirstAux [] l

/-- The server-side filter of `loadAttendances`: each equality filter
is applied only when its value is a nonempty string, mirroring the
JavaScript truthiness tests on `filterDate` and `filterCurso`. -/
def attFilterPred (filterDate filterCurso : String) (a : AttendanceRow) : Bool :=
  (filterDate == "" || a.fecha == filterDate) && (filterCurso == "" || a.curso == filterCurso)

/-- The row pipeline of `AttendanceList.loadAttendances`: filter the
attendance table, order by fecha descending then created_at
descending, and embed the owning student of each row. -/
def loadedRows (sts : List Student) (ats : List AttendanceRow)
    (filterDate filterCurso : String) : List (AttendanceRow × Student) :=
  (sortedBy attBefore (ats.filter (attFilterPred filterDate filterCurso))).filterMap
    (fun a => (sts.find? (fun s => s.id == a.student_id)).map (fun s => (a, s)))

/-- `AttendanceList.loadAttendances`: the loaded rows together with the
course filter options derived from them (first-occurrence distinct,
then sorted). -/
def loadAttendances (sts : List Student) (ats : List AttendanceRow)
    (filterDate filterCurso : String) : List (AttendanceRow × Student) × List String :=
  (loadedRows sts ats filterDate filterCurso,
   sortedBy (fun a b => strLeB a.data b.data)
     (jsSetDedup ((loadedRows sts ats filterDate filterCurso).map (fun p => p.1.curso))))

/-- The relational store: the two tables created by the migration. -/
structure DB where
  students : List Student
  attendance : List AttendanceRow
deriving DecidableEq, Repr

/-- The check constraint on `attendance.estado`. -/
def estadoValid (e : String) : Bool :=
  e == "presente" || e == "ausente" || e == "tardanza" || e == "justificado"

/-- The uniqueness and check constraints of the `students` table,
checked against the other rows. -/
def studentConstraintsOk (others : List Student) (s : Student) : Bool :=
  others.all (fun t =>
    t.id != s.id && t.codigo != s.codigo && t.dni != s.dni &&
    (s.email.isNone || t.email != s.email)) &&
  decide (1 ≤ s.semestre) && decide (s.semestre ≤ 6)

/-- Insert into `students`, subject to the table constraints. -/
def insertStudentDB (db : DB) (s : Student) : Option DB :=
  if studentConstraintsOk db.students s then some ⟨s :: db.students, db.attendance⟩ else none

/-- Apply an update row to a student: every column of `dataToSave` is
replaced, the identifier is kept, and the trigger sets `updated_at`. -/
def applyStudentRow (s : Student) (r : StudentRow) (now : Nat) : Student :=
  { s with
    codigo := r.codigo
    nombres := r.nombres
    apellidos := r.apellidos
    dni := r.dni
    carrera := r.carrera
    semestre := r.semestre
    email := r.email
    telefono := r.telefono
    activo := r.activo
    updated_at := now }

/-- Update by identifier in `students`, subject to the constraints
checked against the other rows. -/
def updateStudentDB (db : DB) (id : String) (r : StudentRow) (now : Nat) : Option DB :=
  if db.students.all (fun t =>
       t.id == id ||
       (t.codigo != r.codigo && t.dni != r.dni && (r.email.isNone || t.email != r.email))) &&
     decide (1 ≤ r.semestre) && decide (r.semestre ≤ 6)
  then some ⟨db.students.map (fun s => if s.id = id then applyStudentRow s r now else s),
             db.attendance⟩
  else none

/-- Delete a student by identifier: the foreign key is declared ON
DELETE CASCADE, so every attendance row referencing the student is
removed with it. -/
def deleteStudentDB (db : DB) (id : String) : DB :=
  ⟨db.students.filter (fun s => s.id != id),
   db.attendance.filter (fun a => a.student_id != id)⟩

/-- The foreign-key and check constraints of the `attendance` table. -/
def attendanceConstraintsOk (db : DB) (sid estado : String) : Bool :=
  db.students.any (fun s => s.id == sid) && estadoValid estado

/-- Insert into `attendance`, subject to the table constraints. -/
def insertAttendanceDB (db : DB) (a : AttendanceRow) : Option DB :=
  if attendanceConstraintsOk db a.student_id a.estado && db.attendance.all (fun b => b.id != a.id)
  then some ⟨db.students, a :: db.attendance⟩ else none

/-- Apply an update row to an attendance entry, keeping the
identifier and creation timestamp. -/
def applyAttendanceRow (a : AttendanceRow) (r : AttendanceSave) : AttendanceRow :=
  { a with
    student_id := r.student_id
    fecha := r.fecha
    estado := r.estado
    hora_entrada := r.hora_entrada
    curso := r.curso
    observaciones := r.observaciones }

/-- Update by identifier in `attendance`, subject to the constraints. -/
def updateAttendanceDB (db : DB) (id : String) (r : AttendanceSave) : Option DB :=
  if attendanceConstraintsOk db r.student_id r.estado
  then some ⟨db.students, db.attendance.map (fun a => if a.id = id then applyAttendanceRow a r else a)⟩
  else none

/-- Delete an attendance entry by identifier. -/
def deleteAttendanceDB (db : DB) (id : String) : DB :=
  ⟨db.students, db.attendance.filter (fun a => a.id != id)⟩

/-- Store states reachable from the empty store through the operations
the application issues. -/
inductive Reachable : DB → Prop where
  | init : Reachable ⟨[], []⟩
  | insertStudent {db db' : DB} {s : Student} :
      Reachable db → insertStudentDB db s = some db' → Reachable db'
  | updateStudent {db db' : DB} {id : String} {r : StudentRow} {now : Nat} :
      Reachable db → updateStudentDB db id r now = some db' → Reachable db'
  | deleteStudent {db : DB} (id : String) :
      Reachable db → Reachable (deleteStudentDB db id)
  | insertAttendance {db db' : DB} {a : AttendanceRow} :
      Reachable db → insertAttendanceDB db a = some db' → Reachable db'
  | updateAttendance {db db' : DB} {id : String} {r : AttendanceSave} :
      Reachable db → updateAttendanceDB db id r = some db' → Reachable db'
  | deleteAttendance {db : DB} (id : String) :
      Reachable db → Reachable (deleteAttendanceDB db id)

/-- A concrete student used by the concrete checks below. -/
def stAna : Student :=
  { id := "u1", codigo := "S1", nombres := "Ana", apellidos := "Lopez", dni := "12345678",
    carrera := "Contabilidad", semestre := 3, email := none, telefono := none, activo := true,
    created_at := 0, updated_at := 0 }

/-- A second concrete student. -/
def stBeto : Student :=
  { id := "u2", codigo := "S2", nombres := "Beto", apellidos := "Quispe", dni := "87654321",
    carrera := "Mecatrónica Industrial", semestre := 2, email := none, telefono := none,
    activo := true, created_at := 1, updated_at := 1 }

/-- A concrete attendance row owned by `stAna`. -/
def atMat : AttendanceRow :=
  { id := "a1", student_id := "u1", fecha := "2025-01-15", estado := "presente",
    hora_entrada := none, curso := "Matemáticas I", observaciones := none, created_at := 10 }

/-- A concrete attendance row owned by `stBeto`. -/
def atFis : AttendanceRow :=
  { id := "a2", student_id := "u2", fecha := "2025-01-14", estado := "tardanza",
    hora_entrada := some "08:15", curso := "Física I", observaciones := none, created_at := 11 }

/-- A concrete store state holding both students and both rows. -/
def dbEx : DB := ⟨[stAna, stBeto], [atMat, atFis]⟩

/-- A fully valid concrete student form. -/
def fValid : StudentFormData :=
  { codigo := "SEN001", nombres := "Juan", apellidos := "Perez", dni := "12345678",
    carrera := "Computación e Informática", semestre := 3, email := "", telefono := "",
    activo := true }

/-- A concrete student form whose dni has only seven digits. -/
def fBadDni : StudentFormData :=
  { codigo := "SEN002", nombres := "Eva", apellidos := "Rojas", dni := "1234567",
    carrera := "Contabilidad", semestre := 2, email := "", telefono := "", activo := true }

/-- A concrete attendance form with empty optional fields. -/
def gEmpty : AttendanceFormData :=
  { student_id := "u1", fecha := "2025-01-15", estado := "presente",
    hora_entrada := "", curso := "Matemáticas I", observaciones := "" }

/-! Helper lemmas about the string model. -/

theorem charsIncludes_nil (h : List Char) : charsIncludes [] h = true := by
  cases h <;> simp [charsIncludes, leadMatch]

theorem jsTrim_eq_nil_iff (s : String) :
    jsTrim s = [] ↔ ∀ c ∈ s.data, c.isWhitespace = true := by
  unfold jsTrim
  rw [List.reverse_eq_nil_iff, List.dropWhile_eq_nil_iff]
  constructor
  · intro h c hc
    have hsplit : c ∈ List.takeWhile Char.isWhitespace s.data ∨
        c ∈ List.dropWhile Char.isWhitespace s.data := by
      rw [← List.mem_append, List.takeWhile_append_dropWhile]
      exact hc
    rcases hsplit with h1 | h1
    · exact List.mem_takeWhile_imp h1
    · exact h _ (List.mem_reverse.mpr h1)
  · intro h x hx
    exact h x ((List.dropWhile_sublist Char.isWhitespace).subset (List.mem_reverse.mp hx))

theorem ws_not_digit {c : Char} (h : c.isWhitespace = true) : c.isDigit = false := by
  have h' : c = ' ' ∨ c = '\t' ∨ c = '\r' ∨ c = '\n' := by
    simpa [Char.isWhitespace, Bool.or_eq_true, decide_eq_true_eq, or_assoc] using h
  rcases h' with h' | h' | h' | h' <;> subst h' <;> decide

theorem dniMatches_false_of_trim_nil {s : String} (h : jsTrim s = []) :
    dniMatches s = false := by
  have hws := (jsTrim_eq_nil_iff s).mp h
  cases hd : s.data with
  | nil => simp [dniMatches, hd]
  | cons c cs =>
    have hc : c.isWhitespace = true := hws c (by rw [hd]; exact List.mem_cons_self c cs)
    simp [dniMatches, hd, ws_not_digit hc]

/-- C8: before persisting, both forms normalise empty-string optional
fields to absent: an empty email or telefono of a student, and an empty
hora_entrada or observaciones of an attendance entry, are saved as null
rather than as the empty string; nonempty values are kept. -/
theorem forms_normalize_empty_optionals (f : StudentFormData) (g : AttendanceFormData) :
    (f.email = "" → (studentDataToSave f).email = none) ∧
    (f.telefono = "" → (studentDataToSave f).telefono = none) ∧
    (g.hora_entrada = "" → (attendanceDataToSave g).hora_entrada = none) ∧
    (g.observaciones = "" → (attendanceDataToSave g).observaciones = none) ∧
    (f.email ≠ "" → (studentDataToSave f).email = some f.email) ∧
    (f.telefono ≠ "" → (studentDataToSave f).telefono = some f.telefono) ∧
    (g.hora_entrada ≠ "" → (attendanceDataToSave g).hora_entrada = some g.hora_entrada) ∧
    (g.observaciones ≠ "" → (attendanceDataToSave g).observaciones = some g.observaciones) := by
  refine ⟨fun h => ?_, fun h => ?_, fun h => ?_, fun h => ?_,
          fun h => ?_, fun h => ?_, fun h => ?_, fun h => ?_⟩ <;>
    simp [studentDataToSave, attendanceDataToSave, h]

/-- Witness for C8 at a concrete form pair. -/
theorem forms_normalize_empty_optionals_witness :
    (studentDataToSave fValid).email = none ∧
    (attendanceDataToSave gEmpty).hora_entrada = none :=
  ⟨(forms_normalize_empty_optionals fValid gEmpty).1 rfl,
   (forms_normalize_empty_optionals fValid gEmpty).2.2.1 rfl⟩

/-- C9: the empty search term is the identity on both client-side
student filters: the student list filter and the attendance form
roster filter return the loaded list unchanged. -/
theorem empty_search_is_identity (ss : List Student) :
    studentListFilter "" ss = ss ∧ rosterFilter "" ss = ss := by
  have h0 : lowerChars "" = [] := rfl
  constructor <;>
  · apply List.filter_eq_self.mpr
    intro s _
    simp [studentListPred, rosterPred, h0, charsIncludes_nil]

/-- C10: a freshly opened attendance form defaults estado to presente
and fecha to the current date, and a submission that only selects a
student and fills the text fields persists an insert with estado
presente dated today. -/
theorem new_attendance_form_defaults (today sid curso hora obs : String) :
    (initAttendanceFormData today).estado = "presente" ∧
    (initAttendanceFormData today).fecha = today ∧
    (validateAttendance (submitOnlySelection today sid curso hora obs) = [] →
      ∃ r, attendanceStoreCall none (submitOnlySelection today sid curso hora obs) =
          some (AttendanceMutation.insert r) ∧ r.estado = "presente" ∧ r.fecha = today) := by
  refine ⟨rfl, rfl, fun h =>
    ⟨attendanceDataToSave (submitOnlySelection today sid curso hora obs), ?_, rfl, rfl⟩⟩
  simp [attendanceStoreCall, h]

/-- Witness for C10 at a concrete submission. -/
theorem new_attendance_form_defaults_witness :
    ∃ r, attendanceStoreCall none (submitOnlySelection "2025-01-15" "u1" "Matemáticas I" "" "") =
        some (AttendanceMutation.insert r) ∧ r.estado = "presente" ∧ r.fecha = "2025-01-15" :=
  (new_attendance_form_defaults "2025-01-15" "u1" "Matemáticas I" "" "").2.2 (by decide)

/-- C2: a student form whose dni fails the eight-digit pattern is
rejected by validation and no store call is made. -/
theorem invalid_dni_blocks_store_call (editing : Option String) (f : StudentFormData)
    (h : dniMatches f.dni = false) :
    validateStudent f ≠ [] ∧ studentStoreCall editing f = none := by
  have hne : validateStudent f ≠ [] := by
    intro he
    unfold validateStudent at he
    simp only [List.append_eq_nil] at he
    have hD := he.1.1.1.2
    by_cases ht : jsTrim f.dni = []
    · simp [ht] at hD
    · simp [ht, h] at hD
  exact ⟨hne, by simp [studentStoreCall, hne]⟩

/-- Witness for C2 at a concrete seven-digit dni. -/
theorem invalid_dni_blocks_store_call_witness :
    validateStudent fBadDni ≠ [] ∧ studentStoreCall none fBadDni = none :=
  invalid_dni_blocks_store_call none fBadDni (by decide)

/-- Counterexample for C3: with the search term 456 and a student
whose dni holds 456 while nombres, apellidos and codigo do not, the
list filter keeps the student although the claimed predicate (names
and code only, and of no other field) rejects it. -/
theorem student_filter_claim_counterexample :
    studentListFilter "456" [stAna] ≠ List.filter (specStudentSearchPred "456") [stAna] := by
  decide

/-- C3 as amended: the student list filter keeps exactly the students
matched case-insensitively on given names, family names or code, or
matched verbatim on the dni by the lowercased term. -/
theorem student_filter_matches_name_code_or_dni (term : String) (ss : List Student) :
    studentListFilter term ss = ss.filter (specStudentSearchPredAmended term) := by
  apply List.filter_congr
  intro s _
  simp [studentListPred, specStudentSearchPredAmended, specStudentSearchPred, Bool.or_assoc]

/-- Counterexample for C4: a uniqueness violation (code 23505) whose
message mentions none of codigo, dni or email produces no user-visible
report at all, not the generic alert the claim requires. -/
theorem unmapped_uniqueness_violation_counterexample :
    handleStudentError ⟨"23505", "duplicate key"⟩ = SubmitFeedback.logOnly ∧
    handleStudentError ⟨"23505", "duplicate key"⟩ ≠ SubmitFeedback.genericAlert := by
  decide

/-- C4 as amended: a failed student mutation with uniqueness-violation
code 23505 is mapped to the first of codigo, dni, email that its
message mentions; a 23505 mentioning none of them is only logged, with
no user-visible report; every other failure raises the generic alert. -/
theorem store_error_feedback (e : StoreError) :
    (e.code ≠ "23505" → handleStudentError e = SubmitFeedback.genericAlert) ∧
    (e.code = "23505" → jsIncludes e.message "codigo" = true →
      handleStudentError e = SubmitFeedback.fieldErrors [("codigo", "Este código ya está registrado")]) ∧
    (e.code = "23505" → jsIncludes e.message "codigo" = false → jsIncludes e.message "dni" = true →
      handleStudentError e = SubmitFeedback.fieldErrors [("dni", "Este DNI ya está registrado")]) ∧
    (e.code = "23505" → jsIncludes e.message "codigo" = false → jsIncludes e.message "dni" = false →
      jsIncludes e.message "email" = true →
      handleStudentError e = SubmitFeedback.fieldErrors [("email", "Este email ya está registrado")]) ∧
    (e.code = "23505" → jsIncludes e.message "codigo" = false → jsIncludes e.message "dni" = false →
      jsIncludes e.message "email" = false → handleStudentError e = SubmitFeedback.logOnly) := by
  refine ⟨fun h => ?_, fun h1 h2 => ?_, fun h1 h2 h3 => ?_,
          fun h1 h2 h3 h4 => ?_, fun h1 h2 h3 h4 => ?_⟩ <;>
    simp [handleStudentError, *]

theorem any_single_chunk (c : Prop) [Decidable c] (fld msg g : String) :
    ((if c then [(fld, msg)] else ([] : List (String × String))).any (fun p => p.1 == g)) =
      (decide c && (fld == g)) := by
  split <;> simp_all

theorem any_double_chunk (A : Prop) [Decidable A] (B : Prop) [Decidable B] (fld m1 m2 g : String) :
    ((if A then [(fld, m1)] else if B then [(fld, m2)] else ([] : List (String × String))).any
        (fun p => p.1 == g)) = ((decide A || decide B) && (fld == g)) := by
  split_ifs <;> simp_all

theorem single_chunk_nil (c : Prop) [Decidable c] (fld msg : String) :
    ((if c then [(fld, msg)] else ([] : List (String × String))) = []) ↔ ¬c := by
  split <;> simp_all

theorem double_chunk_nil (A : Prop) [Decidable A] (B : Prop) [Decidable B] (fld m1 m2 : String) :
    ((if A then [(fld, m1)] else if B then [(fld, m2)] else ([] : List (String × String))) = []) ↔
      (¬A ∧ ¬B) := by
  split_ifs <;> simp_all

theorem validateStudent_any_eq (f : StudentFormData) (g : String) :
    (validateStudent f).any (fun p => p.1 == g) =
      ((decide (jsTrim f.codigo = []) && ("codigo" == g)) ||
       (decide (jsTrim f.nombres = []) && ("nombres" == g)) ||
       (decide (jsTrim f.apellidos = []) && ("apellidos" == g)) ||
       ((decide (jsTrim f.dni = []) || !dniMatches f.dni) && ("dni" == g)) ||
       (decide (f.carrera = "") && ("carrera" == g)) ||
       (decide (f.semestre < 1 ∨ 6 < f.semestre) && ("semestre" == g)) ||
       (decide (f.email ≠ "" ∧ emailMatches f.email = false) && ("email" == g))) := by
  simp only [validateStudent, List.any_append, any_single_chunk, any_double_chunk]
  simp [Bool.or_assoc]

/-- C1: the student submit handler collects one mapping entry per
violated rule and no others, aborts the mutation when the mapping is
nonempty, and proceeds with it exactly when no rule is violated. -/
theorem student_submit_validates_everything (editing : Option String) (f : StudentFormData) :
    (hasStudentError "codigo" f = true ↔ jsTrim f.codigo = []) ∧
    (hasStudentError "nombres" f = true ↔ jsTrim f.nombres = []) ∧
    (hasStudentError "apellidos" f = true ↔ jsTrim f.apellidos = []) ∧
    (hasStudentError "dni" f = true ↔ dniMatches f.dni = false) ∧
    (hasStudentError "carrera" f = true ↔ f.carrera = "") ∧
    (hasStudentError "semestre" f = true ↔ (f.semestre < 1 ∨ 6 < f.semestre)) ∧
    (hasStudentError "email" f = true ↔ (f.email ≠ "" ∧ emailMatches f.email = false)) ∧
    (validateStudent f = [] ↔
      ¬(jsTrim f.codigo = [] ∨ jsTrim f.nombres = [] ∨ jsTrim f.apellidos = [] ∨
        dniMatches f.dni = false ∨ f.carrera = "" ∨ (f.semestre < 1 ∨ 6 < f.semestre) ∨
        (f.email ≠ "" ∧ emailMatches f.email = false))) ∧
    (validateStudent f ≠ [] → studentStoreCall editing f = none) ∧
    (validateStudent f = [] → studentStoreCall editing f = some (studentMutation editing f)) := by
  refine ⟨?_, ?_, ?_, ?_, ?_, ?_, ?_, ?_,
          fun h => by simp [studentStoreCall, h], fun h => by simp [studentStoreCall, h]⟩
  · rw [hasStudentError, validateStudent_any_eq]; simp
  · rw [hasStudentError, validateStudent_any_eq]; simp
  · rw [hasStudentError, validateStudent_any_eq]; simp
  · rw [hasStudentError, validateStudent_any_eq]; simp
    exact fun h => dniMatches_false_of_trim_nil h
  · rw [hasStudentError, validateStudent_any_eq]; simp
  · rw [hasStudentError, validateStudent_any_eq]; simp
  · rw [hasStudentError, validateStudent_any_eq]; simp
  · simp only [validateStudent, List.append_eq_nil, single_chunk_nil, double_chunk_nil]
    constructor
    · rintro ⟨⟨⟨⟨⟨⟨h1, h2⟩, h3⟩, ⟨hd1, hd2⟩⟩, h5⟩, h6⟩, h7⟩
      intro hor
      have hdm : dniMatches f.dni = true := by simpa using hd2
      rcases hor with h | h | h | h | h | h | h
      · exact h1 h
      · exact h2 h
      · exact h3 h
      · rw [h] at hdm; cases hdm
      · exact h5 h
      · exact h6 h
      · exact h7 h
    · intro hnor
      refine ⟨⟨⟨⟨⟨⟨fun h => hnor (Or.inl h), fun h => hnor (Or.inr (Or.inl h))⟩,
        fun h => hnor (Or.inr (Or.inr (Or.inl h)))⟩,
        ⟨fun h => hnor (Or.inr (Or.inr (Or.inr (Or.inl (dniMatches_false_of_trim_nil h))))),
         fun h => hnor (Or.inr (Or.inr (Or.inr (Or.inl (by simpa using h)))))⟩⟩,
        fun h => hnor (Or.inr (Or.inr (Or.inr (Or.inr (Or.inl h)))))⟩,
        fun h => hnor (Or.inr (Or.inr (Or.inr (Or.inr (Or.inr (Or.inl h))))))⟩,
        fun h => hnor (Or.inr (Or.inr (Or.inr (Or.inr (Or.inr (Or.inr h))))))⟩

/-- Witness for C1: at a fully valid form, the mapping is empty and
the insert proceeds. -/
theorem student_submit_validates_everything_witness :
    studentStoreCall none fValid = some (studentMutation none fValid) :=
  (student_submit_validates_everything none fValid).2.2.2.2.2.2.2.2.2 (by decide)

/-- Witness for C4 at a concrete transport error. -/
theorem store_error_feedback_witness :
    handleStudentError ⟨"PGRST301", "network down"⟩ = SubmitFeedback.genericAlert :=
  (store_error_feedback ⟨"PGRST301", "network down"⟩).1 (by decide)

/-! Order lemmas for the lexicographic comparison and the sort. -/

theorem strLtB_irrefl (l : List Char) : strLtB l l = false := by
  induction l with
  | nil => rfl
  | cons a as ih => simp [strLtB, lt_self_iff_false, ih]

theorem strLtB_conn {x : List Char} : ∀ {y : List Char},
    strLtB x y = false → strLtB y x = false → x = y := by
  induction x with
  | nil =>
    intro y h1 h2
    cases y with
    | nil => rfl
    | cons b bs => simp [strLtB] at h1
  | cons a as ih =>
    intro y h1 h2
    cases y with
    | nil => simp [strLtB] at h2
    | cons b bs =>
      simp only [strLtB] at h1 h2
      by_cases hab : a < b
      · rw [if_pos hab] at h1; cases h1
      · by_cases hba : b < a
        · rw [if_pos hba] at h2; cases h2
        · rw [if_neg hab, if_neg hba] at h1
          rw [if_neg hba, if_neg hab] at h2
          have he : a = b := le_antisymm (le_of_not_lt hba) (le_of_not_lt hab)
          subst he
          rw [ih h1 h2]

theorem strLtB_trans {x : List Char} : ∀ {y z : List Char},
    strLtB x y = true → strLtB y z = true → strLtB x z = true := by
  induction x with
  | nil =>
    intro y z h1 h2
    cases z with
    | nil =>
      cases y with
      | nil => simp [strLtB] at h1
      | cons b bs => simp [strLtB] at h2
    | cons c cs => simp [strLtB]
  | cons a as ih =>
    intro y z h1 h2
    cases y with
    | nil => simp [strLtB] at h1
    | cons b bs =>
      cases z with
      | nil => simp [strLtB] at h2
      | cons c cs =>
        simp only [strLtB] at h1 h2 ⊢
        by_cases hab : a < b
        · by_cases hbc : b < c
          · rw [if_pos (lt_trans hab hbc)]
          · by_cases hcb : c < b
            · rw [if_neg hbc, if_pos hcb] at h2; cases h2
            · have he : b = c := le_antisymm (le_of_not_lt hcb) (le_of_not_lt hbc)
              subst he
              rw [if_pos hab]
        · by_cases hba : b < a
          · rw [if_neg hab, if_pos hba] at h1; cases h1
          · have he : a = b := le_antisymm (le_of_not_lt hba) (le_of_not_lt hab)
            subst he
            rw [if_neg hab, if_neg hba] at h1
            by_cases hac : a < c
            · rw [if_pos hac]
            · by_cases hca : c < a
              · rw [if_neg hac, if_pos hca] at h2; cases h2
              · have he2 : a = c := le_antisymm (le_of_not_lt hca) (le_of_not_lt hac)
                subst he2
                rw [if_neg hac, if_neg hca] at h2 ⊢
                exact ih h1 h2

theorem strLeB_total (a b : List Char) : strLeB a b = true ∨ strLeB b a = true := by
  by_cases h1 : strLtB b a = true
  · by_cases h2 : strLtB a b = true
    · exact absurd (strLtB_trans h2 h1) (by simp [strLtB_irrefl])
    · right
      simp [strLeB, eq_false_of_ne_true h2]
  · left
    simp [strLeB, eq_false_of_ne_true h1]

theorem strLeB_trans {a b c : List Char} (h1 : strLeB a b = true) (h2 : strLeB b c = true) :
    strLeB a c = true := by
  unfold strLeB at h1 h2 ⊢
  have hba : strLtB b a = false := by simpa using h1
  have hcb : strLtB c b = false := by simpa using h2
  by_cases hca : strLtB c a = true
  · by_cases hab : strLtB a b = true
    · have := strLtB_trans hca hab
      rw [hcb] at this; cases this
    · have he : a = b := strLtB_conn (eq_false_of_ne_true hab) hba
      subst he
      rw [hca] at hcb; cases hcb
  · simp [eq_false_of_ne_true hca]

theorem attBefore_total (a b : AttendanceRow) : attBefore a b = true ∨ attBefore b a = true := by
  unfold attBefore
  by_cases h1 : strLtB b.fecha.data a.fecha.data = true
  · left; rw [if_pos h1]
  · by_cases h2 : strLtB a.fecha.data b.fecha.data = true
    · right; rw [if_pos h2]
    · rcases Nat.le_total b.created_at a.created_at with h | h
      · left
        rw [if_neg h1, if_neg h2]
        exact decide_eq_true h
      · right
        rw [if_neg h2, if_neg h1]
        exact decide_eq_true h

theorem attBefore_trans {a b c : AttendanceRow}
    (h1 : attBefore a b = true) (h2 : attBefore b c = true) : attBefore a c = true := by
  unfold attBefore at h1 h2 ⊢
  by_cases hBA : strLtB b.fecha.data a.fecha.data = true
  · by_cases hCB : strLtB c.fecha.data b.fecha.data = true
    · rw [if_pos (strLtB_trans hCB hBA)]
    · rw [if_neg hCB] at h2
      by_cases hBC : strLtB b.fecha.data c.fecha.data = true
      · rw [if_pos hBC] at h2; cases h2
      · have he : b.fecha.data = c.fecha.data :=
          strLtB_conn (eq_false_of_ne_true hBC) (eq_false_of_ne_true hCB)
        rw [if_pos (he ▸ hBA)]
  · rw [if_neg hBA] at h1
    by_cases hAB : strLtB a.fecha.data b.fecha.data = true
    · rw [if_pos hAB] at h1; cases h1
    · rw [if_neg hAB] at h1
      have hABeq : a.fecha.data = b.fecha.data :=
        strLtB_conn (eq_false_of_ne_true hAB) (eq_false_of_ne_true hBA)
      have hcba : b.created_at ≤ a.created_at := of_decide_eq_true h1
      by_cases hCB : strLtB c.fecha.data b.fecha.data = true
      · rw [if_pos (by rw [hABeq]; exact hCB)]
      · rw [if_neg hCB] at h2
        by_cases hBC : strLtB b.fecha.data c.fecha.data = true
        · rw [if_pos hBC] at h2; cases h2
        · rw [if_neg hBC] at h2
          have hBCeq : b.fecha.data = c.fecha.data :=
            strLtB_conn (eq_false_of_ne_true hBC) (eq_false_of_ne_true hCB)
          have hccb : c.created_at ≤ b.created_at := of_decide_eq_true h2
          have hCA : strLtB c.fecha.data a.fecha.data = false := by
            rw [hABeq, hBCeq]; exact strLtB_irrefl _
          have hAC : strLtB a.fecha.data c.fecha.data = false := by
            rw [hABeq, hBCeq]; exact strLtB_irrefl _
          rw [if_neg (by simp [hCA]), if_neg (by simp [hAC])]
          exact decide_eq_true (le_trans hccb hcba)

theorem insertSorted_perm {α : Type} (le : α → α → Bool) (x : α) (l : List α) :
    (insertSorted le x l).Perm (x :: l) := by
  induction l with
  | nil => exact List.Perm.refl _
  | cons y ys ih =>
    by_cases h : le x y = true
    · rw [insertSorted, if_pos h]
    · rw [insertSorted, if_neg h]
      exact (ih.cons y).trans (List.Perm.swap x y ys)

theorem sortedBy_perm {α : Type} (le : α → α → Bool) (l : List α) :
    (sortedBy le l).Perm l := by
  induction l with
  | nil => exact List.Perm.refl _
  | cons x xs ih =>
    rw [sortedBy]
    exact (insertSorted_perm le x (sortedBy le xs)).trans (ih.cons x)

theorem insertSorted_pairwise {α : Type} {le : α → α → Bool}
    (htot : ∀ a b, le a b = true ∨ le b a = true)
    (htrans : ∀ a b c, le a b = true → le b c = true → le a c = true)
    (x : α) {l : List α} (h : l.Pairwise (fun a b => le a b = true)) :
    (insertSorted le x l).Pairwise (fun a b => le a b = true) := by
  induction l with
  | nil => simp [insertSorted]
  | cons y ys ih =>
    rcases List.pairwise_cons.mp h with ⟨hy, hys⟩
    by_cases hxy : le x y = true
    · rw [insertSorted, if_pos hxy]
      refine List.pairwise_cons.mpr ⟨?_, h⟩
      intro a ha
      rcases List.mem_cons.mp ha with rfl | ha
      · exact hxy
      · exact htrans x y a hxy (hy a ha)
    · rw [insertSorted, if_neg hxy]
      have hyx : le y x = true := (htot x y).resolve_left hxy
      refine List.pairwise_cons.mpr ⟨?_, ih hys⟩
      intro a ha
      have ha' : a ∈ x :: ys := (insertSorted_perm le x ys).mem_iff.mp ha
      rcases List.mem_cons.mp ha' with rfl | ha'
      · exact hyx
      · exact hy a ha'

theorem sortedBy_pairwise {α : Type} {le : α → α → Bool}
    (htot : ∀ a b, le a b = true ∨ le b a = true)
    (htrans : ∀ a b c, le a b = true → le b c = true → le a c = true)
    (l : List α) : (sortedBy le l).Pairwise (fun a b => le a b = true) := by
  induction l with
  | nil => simp [sortedBy]
  | cons x xs ih =>
    rw [sortedBy]
    exact insertSorted_pairwise htot htrans x ih

theorem mem_dedupFirstAux {x : String} : ∀ {seen l : List String},
    x ∈ dedupFirstAux seen l ↔ x ∈ l ∧ x ∉ seen := by
  intro seen l
  induction l generalizing seen with
  | nil => simp [dedupFirstAux]
  | cons y ys ih =>
    by_cases hy : y ∈ seen
    · rw [dedupFirstAux, if_pos hy, ih]
      constructor
      · rintro ⟨hx, hs⟩
        exact ⟨List.mem_cons_of_mem y hx, hs⟩
      · rintro ⟨hx, hs⟩
        rcases List.mem_cons.mp hx with rfl | hx
        · exact absurd hy hs
        · exact ⟨hx, hs⟩
    · rw [dedupFirstAux, if_neg hy]
      constructor
      · intro hx
        rcases List.mem_cons.mp hx with rfl | hx
        · exact ⟨List.mem_cons_self _ _, hy⟩
        · rcases ih.mp hx with ⟨h1, h2⟩
          exact ⟨List.mem_cons_of_mem _ h1, fun hs => h2 (List.mem_cons_of_mem _ hs)⟩
      · rintro ⟨hx, hs⟩
        rcases List.mem_cons.mp hx with rfl | hx
        · exact List.mem_cons_self _ _
        · by_cases hxy : x = y
          · subst hxy; exact List.mem_cons_self _ _
          · exact List.mem_cons_of_mem _ (ih.mpr ⟨hx, by simp [List.mem_cons, hxy, hs]⟩)

theorem nodup_dedupFirstAux : ∀ {seen l : List String}, (dedupFirstAux seen l).Nodup := by
  intro seen l
  induction l generalizing seen with
  | nil => simp [dedupFirstAux]
  | cons y ys ih =>
    by_cases hy : y ∈ seen
    · rw [dedupFirstAux, if_pos hy]
      exact ih
    · rw [dedupFirstAux, if_neg hy]
      refine List.nodup_cons.mpr ⟨?_, ih⟩
      intro hmem
      exact (mem_dedupFirstAux.mp hmem).2 (List.mem_cons_self _ _)

/-- C5: with a nonempty exact date and a nonempty exact course, the
loaded attendance list holds only rows matching both filters, each
joined with its owning student; every matching row whose owner exists
is present; and the list is ordered by date descending then creation
timestamp descending. -/
theorem attendance_filter_by_date_and_course (sts : List Student) (ats : List AttendanceRow)
    (d c : String) (hd : d ≠ "") (hc : c ≠ "") :
    (∀ p ∈ (loadAttendances sts ats d c).1,
        p.1 ∈ ats ∧ p.1.fecha = d ∧ p.1.curso = c ∧ p.2 ∈ sts ∧ p.2.id = p.1.student_id) ∧
    (∀ a ∈ ats, a.fecha = d → a.curso = c → (∃ s ∈ sts, s.id = a.student_id) →
        ∃ s, (a, s) ∈ (loadAttendances sts ats d c).1) ∧
    (loadAttendances sts ats d c).1.Pairwise (fun p q =>
        strLtB q.1.fecha.data p.1.fecha.data = true ∨
          (p.1.fecha = q.1.fecha ∧ q.1.created_at ≤ p.1.created_at)) := by
  have hd' : (d == "") = false := by simpa using hd
  have hc' : (c == "") = false := by simpa using hc
  refine ⟨?_, ?_, ?_⟩
  · intro p hp
    rcases List.mem_filterMap.mp hp with ⟨a, ha, hfa⟩
    rcases Option.map_eq_some'.mp hfa with ⟨s, hfind, hps⟩
    cases hps
    have hmem : a ∈ ats.filter (attFilterPred d c) := (sortedBy_perm _ _).mem_iff.mp ha
    rcases List.mem_filter.mp hmem with ⟨hats, hpred⟩
    rw [attFilterPred, hd', hc'] at hpred
    simp only [Bool.false_or, Bool.and_eq_true, beq_iff_eq] at hpred
    have hsid := List.find?_some hfind
    exact ⟨hats, hpred.1, hpred.2, List.mem_of_find?_eq_some hfind, by simpa using hsid⟩
  · intro a ha hf hcu hex
    have hpred : attFilterPred d c a = true := by
      rw [attFilterPred]
      simp [hf, hcu]
    have hmems : a ∈ sortedBy attBefore (ats.filter (attFilterPred d c)) :=
      (sortedBy_perm _ _).mem_iff.mpr (List.mem_filter.mpr ⟨ha, hpred⟩)
    have hfind : (sts.find? (fun s => s.id == a.student_id)).isSome := by
      rw [List.find?_isSome]
      rcases hex with ⟨s, hs, hid⟩
      exact ⟨s, hs, by simp [hid]⟩
    rcases Option.isSome_iff_exists.mp hfind with ⟨s, hs⟩
    exact ⟨s, List.mem_filterMap.mpr ⟨a, hmems, by simp [hs]⟩⟩
  · have hsorted := sortedBy_pairwise attBefore_total
      (fun a b c h1 h2 => attBefore_trans h1 h2) (ats.filter (attFilterPred d c))
    refine List.pairwise_filterMap.mpr (hsorted.imp ?_)
    intro a a' hle b hb b' hb'
    rcases Option.map_eq_some'.mp hb with ⟨s, _, hbs⟩
    rcases Option.map_eq_some'.mp hb' with ⟨s', _, hbs'⟩
    cases hbs
    cases hbs'
    rw [attBefore] at hle
    by_cases h1 : strLtB a'.fecha.data a.fecha.data = true
    · exact Or.inl h1
    · rw [if_neg h1] at hle
      by_cases h2 : strLtB a.fecha.data a'.fecha.data = true
      · rw [if_pos h2] at hle; cases hle
      · rw [if_neg h2] at hle
        exact Or.inr ⟨String.ext (strLtB_conn (eq_false_of_ne_true h2) (eq_false_of_ne_true h1)),
          of_decide_eq_true hle⟩

/-- Witness for C5 at a concrete store content and concrete filters. -/
theorem attendance_filter_by_date_and_course_witness :
    ∃ s, (atMat, s) ∈ (loadAttendances [stAna] [atMat] "2025-01-15" "Matemáticas I").1 :=
  (attendance_filter_by_date_and_course [stAna] [atMat] "2025-01-15" "Matemáticas I"
    (by decide) (by decide)).2.1 atMat (by decide) (by decide) (by decide)
    ⟨stAna, by decide, by decide⟩

/-- C6: the course filter options equal the distinct course names of
the currently loaded, already filtered result set, sorted and without
duplicates; they are not derived from the whole attendance table. -/
theorem course_options_from_loaded_rows (sts : List Student) (ats : List AttendanceRow)
    (d c : String) :
    ((loadAttendances sts ats d c).2.Pairwise (fun x y => strLeB x.data y.data = true)) ∧
    (loadAttendances sts ats d c).2.Nodup ∧
    (∀ x, x ∈ (loadAttendances sts ats d c).2 ↔
      ∃ p ∈ (loadAttendances sts ats d c).1, p.1.curso = x) := by
  have h2 : (loadAttendances sts ats d c).2 =
      sortedBy (fun a b => strLeB a.data b.data)
        (jsSetDedup ((loadedRows sts ats d c).map (fun p => p.1.curso))) := rfl
  have hperm := sortedBy_perm (fun a b : String => strLeB a.data b.data)
      (jsSetDedup ((loadedRows sts ats d c).map (fun p => p.1.curso)))
  refine ⟨?_, ?_, ?_⟩
  · rw [h2]
    refine sortedBy_pairwise ?_ ?_ _
    · exact fun a b => strLeB_total a.data b.data
    · intro a b c h1 h2
      exact strLeB_trans h1 h2
  · rw [h2]
    exact hperm.nodup_iff.mpr nodup_dedupFirstAux
  · intro x
    rw [h2, hperm.mem_iff, jsSetDedup, mem_dedupFirstAux]
    simp [List.mem_map]
    constructor
    · rintro ⟨p, hp, hx⟩
      exact ⟨p, hp, hx⟩
    · rintro ⟨p, hp, hx⟩
      exact ⟨p, hp, hx⟩

/-- C7: deleting a student removes every attendance row referencing
it, and in every reachable store state each attendance row references
an existing student. -/
theorem student_delete_cascades_and_fk :
    (∀ (db : DB) (id : String), ∀ a ∈ (deleteStudentDB db id).attendance, a.student_id ≠ id) ∧
    (∀ db : DB, Reachable db → ∀ a ∈ db.attendance, ∃ s ∈ db.students, s.id = a.student_id) := by
  constructor
  · intro db id a ha
    have h := (List.mem_filter.mp ha).2
    simpa using h
  · intro db hdb
    induction hdb with
    | init =>
      intro a ha
      exact absurd ha (List.not_mem_nil a)
    | @insertStudent db db' s h heq ih =>
      rw [insertStudentDB] at heq
      rcases Option.ite_none_right_eq_some.mp heq with ⟨_, hdb'⟩
      obtain rfl := Option.some.inj hdb'
      intro a ha
      rcases ih a ha with ⟨t, ht, hid⟩
      exact ⟨t, List.mem_cons_of_mem _ ht, hid⟩
    | @updateStudent db db' id r now h heq ih =>
      rw [updateStudentDB] at heq
      rcases Option.ite_none_right_eq_some.mp heq with ⟨_, hdb'⟩
      obtain rfl := Option.some.inj hdb'
      intro a ha
      rcases ih a ha with ⟨s, hs, hid⟩
      refine ⟨(if s.id = id then applyStudentRow s r now else s), List.mem_map_of_mem _ hs, ?_⟩
      by_cases hsid : s.id = id
      · rw [if_pos hsid]
        simpa [applyStudentRow] using hid
      · rw [if_neg hsid]
        exact hid
    | @deleteStudent db id h ih =>
      intro a ha
      rcases List.mem_filter.mp ha with ⟨hmem, hbne⟩
      rcases ih a hmem with ⟨s, hs, hid⟩
      have hane : a.student_id ≠ id := by simpa using hbne
      refine ⟨s, List.mem_filter.mpr ⟨hs, ?_⟩, hid⟩
      simpa using fun hcontra => hane (hid.symm.trans hcontra)
    | @insertAttendance db db' a0 h heq ih =>
      rw [insertAttendanceDB] at heq
      rcases Option.ite_none_right_eq_some.mp heq with ⟨hcond, hdb'⟩
      obtain rfl := Option.some.inj hdb'
      intro a ha
      rcases List.mem_cons.mp ha with rfl | ha
      · have hany : db.students.any (fun s => s.id == a.student_id) = true := by
          simp only [attendanceConstraintsOk, Bool.and_eq_true] at hcond
          exact hcond.1.1
        rcases List.any_eq_true.mp hany with ⟨s, hs, hsid⟩
        exact ⟨s, hs, by simpa using hsid⟩
      · exact ih a ha
    | @updateAttendance db db' id r h heq ih =>
      rw [updateAttendanceDB] at heq
      rcases Option.ite_none_right_eq_some.mp heq with ⟨hcond, hdb'⟩
      obtain rfl := Option.some.inj hdb'
      intro a ha
      rcases List.mem_map.mp ha with ⟨b, hb, hba⟩
      by_cases hbid : b.id = id
      · rw [if_pos hbid] at hba
        subst hba
        have hany : db.students.any (fun s => s.id == r.student_id) = true := by
          simp only [attendanceConstraintsOk, Bool.and_eq_true] at hcond
          exact hcond.1
        rcases List.any_eq_true.mp hany with ⟨s, hs, hsid⟩
        refine ⟨s, hs, ?_⟩
        simpa [applyAttendanceRow] using hsid
      · rw [if_neg hbid] at hba
        subst hba
        exact ih b hb
    | @deleteAttendance db id h ih =>
      intro a ha
      exact ih a (List.mem_filter.mp ha).1

/-- Witness for C7: in a concrete store, after deleting one student
the remaining attendance row does not reference it. -/
theorem student_delete_cascades_and_fk_witness :
    atFis.student_id ≠ "u1" :=
  student_delete_cascades_and_fk.1 dbEx "u1" atFis (by decide)

end Asistencia
